import Mathlib

/-!
Verification of the cross-chain bridge ledger core of `polkadot-compat`.

The pallet in `runtime/src/cosmos.rs` is shallowly embedded as pure Lean
functions over an explicit `PalletState`:

* FRAME storage maps (`CosmosAccounts`, `CrossChainTransactions`) become
  association lists with overwrite-on-insert semantics, matching
  `StorageMap::insert` / `contains_key` / `get`.
* The `Currency` trait is modelled by explicit `free` / `reserved` balance
  tables; `reserve` moves funds from free to reserved and fails when the
  free balance is insufficient (the model carries no liquidity locks).
* `T::Hashing::hash_of(&(&who, &to_cosmos_address, &amount))` is modelled
  by the (injective) tuple itself: the embedding idealises the hash as
  collision-free on distinct triples.
* Each dispatchable returns `Except (Error × PalletState) PalletState`.
  A successful call returns the new committed state.  An error carries the
  storage as mutated up to the failure point; FRAME's transactional
  dispatch discards that partial state, which `exec` makes explicit by
  committing the input state on error.
* `ensure_signed` is modelled by passing the already-authenticated caller
  account as an argument; unsigned origins are outside the embedding.

The validation utilities and the FFI boundary of `src/lib.rs` are embedded
below in the `utils` and `ffi` namespaces; a C string pointer argument is
modelled by `CStrArg` (null pointer, non-UTF-8 bytes, or a decoded string),
and the null sentinel returned across the boundary by `Option.none`.
-/

set_option maxRecDepth 8000

namespace CosmosBridge

abbrev AccountId := Nat

abbrev Balance := Nat

abbrev CosmosAddress := List Nat

/-- Association-list lookup, modelling `StorageMap::get` (and
`contains_key` via `≠ none`). -/
def assocGet {α β : Type} [DecidableEq α] (k : α) : List (α × β) → Option β
  | [] => none
  | (k', v) :: rest => if k' = k then some v else assocGet k rest

/-- Association-list insert with overwrite, modelling `StorageMap::insert`. -/
def assocSet {α β : Type} [DecidableEq α] (k : α) (v : β) :
    List (α × β) → List (α × β)
  | [] => [(k, v)]
  | (k', v') :: rest =>
    if k' = k then (k, v) :: rest else (k', v') :: assocSet k v rest

/-- `TxStatus` from cosmos.rs. -/
inductive TxStatus : Type
  | Initiated
  | Completed
  | Failed
deriving DecidableEq

/-- `CrossChainTx` from cosmos.rs (`from` is a Lean keyword, hence `from_`). -/
structure CrossChainTx : Type where
  from_ : AccountId
  to_cosmos_address : CosmosAddress
  amount : Balance
  status : TxStatus
deriving DecidableEq

/-- Model of `T::Hash` for the transaction id: `hash_of` is applied to the
triple `(who, to_cosmos_address, amount)` and idealised as injective. -/
abbrev TxHash := AccountId × CosmosAddress × Balance

/-- Model of `T::Hashing::hash_of(&(&who, &to_cosmos_address, &amount))`. -/
def hash_of (who : AccountId) (to_cosmos_address : CosmosAddress)
    (amount : Balance) : TxHash :=
  (who, to_cosmos_address, amount)

/-- The pallet's `Event` enum. -/
inductive Event : Type
  | CosmosAccountLinked (cosmos_address : CosmosAddress)
      (substrate_account : AccountId)
  | CrossChainTransactionInitiated (from_ : AccountId)
      (to_cosmos_address : CosmosAddress) (amount : Balance) (tx_hash : TxHash)
  | CrossChainTransactionCompleted (tx_hash : TxHash)
deriving DecidableEq

/-- The pallet's `Error` enum, extended with the error surfaced by the
`Currency::reserve` call (`ReserveFailed`). -/
inductive Error : Type
  | AccountAlreadyLinked
  | InvalidCosmosAddress
  | TransactionNotFound
  | InsufficientBalance
  | ReserveFailed
deriving DecidableEq

/-- The pallet storage plus the balance tables of the underlying `Currency`
and the deposited events. -/
structure PalletState : Type where
  cosmosAccounts : List (CosmosAddress × AccountId)
  crossChainTransactions : List (TxHash × CrossChainTx)
  free : List (AccountId × Balance)
  reserved : List (AccountId × Balance)
  events : List Event
deriving DecidableEq

/-- `T::Currency::free_balance` (absent accounts hold zero). -/
def free_balance (st : PalletState) (a : AccountId) : Balance :=
  (assocGet a st.free).getD 0

/-- The reserved balance of an account. -/
def reserved_balance (st : PalletState) (a : AccountId) : Balance :=
  (assocGet a st.reserved).getD 0

/-- `T::Currency::reserve`: moves `amount` from free to reserved, failing
when the free balance is insufficient. -/
def reserve (st : PalletState) (a : AccountId) (amount : Balance) :
    Except Error PalletState :=
  if amount ≤ free_balance st a then
    .ok { st with
      free := assocSet a (free_balance st a - amount) st.free,
      reserved := assocSet a (reserved_balance st a + amount) st.reserved }
  else
    .error .ReserveFailed

/-- `Self::deposit_event`. -/
def deposit_event (st : PalletState) (e : Event) : PalletState :=
  { st with events := st.events ++ [e] }

/-- `link_cosmos_account` (cosmos.rs lines 122-150): validate the address
length, reject if the address is already linked, insert the link, emit the
event.  Errors carry the storage as of the failure point. -/
def link_cosmos_account (st : PalletState) (who : AccountId)
    (cosmos_address : CosmosAddress) :
    Except (Error × PalletState) PalletState :=
  if 20 ≤ cosmos_address.length ∧ cosmos_address.length ≤ 255 then
    if assocGet cosmos_address st.cosmosAccounts = none then
      let st1 := { st with
        cosmosAccounts := assocSet cosmos_address who st.cosmosAccounts }
      .ok (deposit_event st1 (.CosmosAccountLinked cosmos_address who))
    else
      .error (.AccountAlreadyLinked, st)
  else
    .error (.InvalidCosmosAddress, st)

/-- `initiate_cross_chain_tx` (cosmos.rs lines 155-194): check the free
balance, derive the hash, insert the record (overwriting any existing one,
as the source performs no duplicate check), then reserve.  Note the record
insert happens BEFORE the `reserve` call, exactly as in the source; an
error from `reserve` therefore carries the state with the record already
inserted (which FRAME's transactional dispatch would roll back). -/
def initiate_cross_chain_tx (st : PalletState) (who : AccountId)
    (to_cosmos_address : CosmosAddress) (amount : Balance) :
    Except (Error × PalletState) PalletState :=
  if amount ≤ free_balance st who then
    let tx_hash := hash_of who to_cosmos_address amount
    let cross_chain_tx : CrossChainTx :=
      ⟨who, to_cosmos_address, amount, .Initiated⟩
    let st1 := { st with
      crossChainTransactions :=
        assocSet tx_hash cross_chain_tx st.crossChainTransactions }
    match reserve st1 who amount with
    | .error e => .error (e, st1)
    | .ok st2 =>
      .ok (deposit_event st2
        (.CrossChainTransactionInitiated who to_cosmos_address amount tx_hash))
  else
    .error (.InsufficientBalance, st)

/-- `complete_cross_chain_tx` (cosmos.rs lines 199-217): look the record up
(failing with `TransactionNotFound` when absent), set its status to
`Completed` — the source performs NO check on the current status — and emit
the event.  The signed caller is bound as `_who` and never used, exactly as
in the source. -/
def complete_cross_chain_tx (st : PalletState) (_who : AccountId)
    (tx_hash : TxHash) : Except (Error × PalletState) PalletState :=
  match assocGet tx_hash st.crossChainTransactions with
  | none => .error (.TransactionNotFound, st)
  | some tx =>
    let st1 := { st with
      crossChainTransactions :=
        assocSet tx_hash { tx with status := .Completed }
          st.crossChainTransactions }
    .ok (deposit_event st1 (.CrossChainTransactionCompleted tx_hash))

/-- The pallet's dispatchable calls (the caller is the account recovered by
`ensure_signed`). -/
inductive Call : Type
  | link (who : AccountId) (cosmos_address : CosmosAddress)
  | initiate (who : AccountId) (to_cosmos_address : CosmosAddress)
      (amount : Balance)
  | complete (who : AccountId) (tx_hash : TxHash)
deriving DecidableEq

/-- Dispatch a call against the state. -/
def dispatch (st : PalletState) : Call → Except (Error × PalletState) PalletState
  | .link who cosmos_address => link_cosmos_account st who cosmos_address
  | .initiate who to_cosmos_address amount =>
    initiate_cross_chain_tx st who to_cosmos_address amount
  | .complete who tx_hash => complete_cross_chain_tx st who tx_hash

/-- The state committed by FRAME's transactional dispatch: the new state on
success, the unchanged input state on error (partial writes rolled back). -/
def exec (st : PalletState) (c : Call) : PalletState :=
  match dispatch st c with
  | .ok st' => st'
  | .error _ => st

/-- Run a sequence of calls. -/
def execAll (st : PalletState) (cs : List Call) : PalletState :=
  cs.foldl exec st

namespace utils

/-- `utils::validate_cosmos_address` (lib.rs lines 141-144): Rust
`str::len()` is the UTF-8 byte length, modelled by `String.utf8ByteSize`. -/
def validate_cosmos_address (address : String) : Bool :=
  decide (20 ≤ address.utf8ByteSize) && decide (address.utf8ByteSize ≤ 255)

/-- `utils::validate_polkadot_address` (lib.rs lines 147-150). -/
def validate_polkadot_address (address : String) : Bool :=
  decide (32 ≤ address.utf8ByteSize) && decide (address.utf8ByteSize ≤ 64)

end utils

/-- `compat::CrossChainTransaction` from lib.rs. -/
structure CrossChainTransaction : Type where
  source_chain : String
  dest_chain : String
  payload : List Nat
  hash : String
deriving DecidableEq

namespace ffi

/-- A `*const c_char` argument as seen after the null check and
`CStr::from_ptr(..).to_str()`: a null pointer, a NUL-terminated byte string
that is not valid UTF-8, or the decoded string. -/
inductive CStrArg : Type
  | null
  | invalidUtf8
  | valid (s : String)
deriving DecidableEq

/-- `CStr::from_ptr(..).to_str()` outcome for a non-null pointer. -/
def cstr_to_str : CStrArg → Option String
  | .valid s => some s
  | _ => none

/-- One hexadecimal digit, lowercase, as used by serde_json's `\u00XX`
control-character escapes. -/
def hexDigit (n : Nat) : Char :=
  if n < 10 then Char.ofNat (48 + n) else Char.ofNat (87 + n)

/-- serde_json's escaping of a single character inside a JSON string:
quote, backslash, the short control escapes, `\u00XX` for the remaining
control characters, everything else verbatim. -/
def escapeChar (c : Char) : String :=
  if c = Char.ofNat 34 then "\\\""
  else if c = Char.ofNat 92 then "\\\\"
  else if c = Char.ofNat 8 then "\\b"
  else if c = Char.ofNat 9 then "\\t"
  else if c = Char.ofNat 10 then "\\n"
  else if c = Char.ofNat 12 then "\\f"
  else if c = Char.ofNat 13 then "\\r"
  else if c.toNat < 32 then
    "\\u00" ++ String.singleton (hexDigit (c.toNat / 16))
      ++ String.singleton (hexDigit (c.toNat % 16))
  else String.singleton c

/-- A JSON string literal with serde_json escaping. -/
def jsonStr (s : String) : String :=
  "\"" ++ String.join (s.data.map escapeChar) ++ "\""

/-- A JSON array of numbers, as serde_json serialises `Vec<u8>`. -/
def jsonArr (bs : List Nat) : String :=
  "[" ++ String.intercalate "," (bs.map toString) ++ "]"

/-- `serde_json::to_string` for `CrossChainTransaction`: fields in
declaration order. -/
def jsonEncodeTx (tx : CrossChainTransaction) : String :=
  "\x7b\"source_chain\":" ++ jsonStr tx.source_chain
    ++ ",\"dest_chain\":" ++ jsonStr tx.dest_chain
    ++ ",\"payload\":" ++ jsonArr tx.payload
    ++ ",\"hash\":" ++ jsonStr tx.hash ++ "\x7d"

/-- `CString::new`: fails (yielding the null sentinel) when the string
contains an interior NUL byte. -/
def cstring_new (s : String) : Option String :=
  if s.data.contains (Char.ofNat 0) then none else some s

/-- `ffi::create_cross_chain_transaction` (lib.rs lines 188-233): null
checks first, then UTF-8 decoding of the two chain ids, then the payload
slice is read verbatim, the mock hash is formatted, and the record is
serialised to JSON and returned as a C string.  `none` models the null
sentinel returned across the boundary. -/
def create_cross_chain_transaction (source_chain dest_chain : CStrArg)
    (payload : Option (List Nat)) : Option String :=
  if source_chain = .null ∨ dest_chain = .null ∨ payload = none then none
  else
    match cstr_to_str source_chain with
    | none => none
    | some source_chain_str =>
      match cstr_to_str dest_chain with
      | none => none
      | some dest_chain_str =>
        let payload_bytes := payload.getD []
        let hash := "tx_" ++ source_chain_str ++ "_" ++ dest_chain_str
        let tx : CrossChainTransaction :=
          ⟨source_chain_str, dest_chain_str, payload_bytes, hash⟩
        match cstring_new (jsonEncodeTx tx) with
        | .some c_string => some c_string
        | .none => none

/-- `ffi::validate_cosmos_address` (lib.rs lines 237-254): 0 for a null
pointer or invalid UTF-8, otherwise the boolean validator as 0/1. -/
def validate_cosmos_address (address : CStrArg) : Int :=
  match address with
  | .null => 0
  | .invalidUtf8 => 0
  | .valid s => if utils.validate_cosmos_address s then 1 else 0

/-- `ffi::validate_polkadot_address` (lib.rs lines 258-275). -/
def validate_polkadot_address (address : CStrArg) : Int :=
  match address with
  | .null => 0
  | .invalidUtf8 => 0
  | .valid s => if utils.validate_polkadot_address s then 1 else 0

end ffi

/-! ### Store lemmas -/

theorem assocGet_assocSet_self {α β : Type} [DecidableEq α] (k : α) (v : β)
    (l : List (α × β)) : assocGet k (assocSet k v l) = some v := by
  induction l with
  | nil => simp [assocGet, assocSet]
  | cons p rest ih =>
    obtain ⟨k', v'⟩ := p
    by_cases h : k' = k
    · simp [assocSet, assocGet, h]
    · simp [assocSet, assocGet, h, ih]

theorem assocGet_assocSet_ne {α β : Type} [DecidableEq α] {k k' : α}
    (h : k' ≠ k) (v : β) (l : List (α × β)) :
    assocGet k' (assocSet k v l) = assocGet k' l := by
  have hk : ¬(k = k') := fun e => h e.symm
  induction l with
  | nil => simp [assocGet, assocSet, hk]
  | cons p rest ih =>
    obtain ⟨k'', v'⟩ := p
    by_cases h1 : k'' = k
    · subst h1
      simp [assocSet, assocGet, hk]
    · simp [assocSet, assocGet, h1, ih]

/-! ### Success characterisations of the three calls -/

/-- When the balance check passes, `initiate_cross_chain_tx` succeeds and
the resulting state is exactly: the record inserted, `amount` moved from
free to reserved, and the event appended. -/
theorem initiate_ok_of_le {st : PalletState} {who : AccountId}
    {to_cosmos_address : CosmosAddress} {amount : Balance}
    (h : amount ≤ free_balance st who) :
    initiate_cross_chain_tx st who to_cosmos_address amount = .ok { st with
      crossChainTransactions :=
        assocSet (hash_of who to_cosmos_address amount)
          ⟨who, to_cosmos_address, amount, .Initiated⟩
          st.crossChainTransactions,
      free := assocSet who (free_balance st who - amount) st.free,
      reserved := assocSet who (reserved_balance st who + amount) st.reserved,
      events := st.events ++ [.CrossChainTransactionInitiated who
        to_cosmos_address amount (hash_of who to_cosmos_address amount)] } := by
  have h' : amount ≤ (assocGet who st.free).getD 0 := h
  simp only [initiate_cross_chain_tx, reserve, free_balance, reserved_balance,
    deposit_event, hash_of, if_pos h']

/-- When the address is found, `complete_cross_chain_tx` succeeds and the
resulting state is exactly: the record's status overwritten to `Completed`
and the event appended. -/
theorem complete_ok_of_found {st : PalletState} {tx_hash : TxHash}
    {tx : CrossChainTx} (who : AccountId)
    (h : assocGet tx_hash st.crossChainTransactions = some tx) :
    complete_cross_chain_tx st who tx_hash = .ok { st with
      crossChainTransactions :=
        assocSet tx_hash { tx with status := .Completed }
          st.crossChainTransactions,
      events := st.events ++ [.CrossChainTransactionCompleted tx_hash] } := by
  unfold complete_cross_chain_tx
  rw [h]
  rfl

/-- When the address length is in range and no link exists,
`link_cosmos_account` succeeds and the resulting state is exactly: the link
inserted and the event appended. -/
theorem link_ok_spec {st : PalletState} {who : AccountId}
    {cosmos_address : CosmosAddress}
    (hlen : 20 ≤ cosmos_address.length ∧ cosmos_address.length ≤ 255)
    (hnone : assocGet cosmos_address st.cosmosAccounts = none) :
    link_cosmos_account st who cosmos_address = .ok { st with
      cosmosAccounts := assocSet cosmos_address who st.cosmosAccounts,
      events := st.events ++ [.CosmosAccountLinked cosmos_address who] } := by
  unfold link_cosmos_account
  rw [if_pos hlen, if_pos hnone]
  rfl

/-! ### Concrete states used by counterexamples and witnesses -/

/-- A 20-byte foreign address. -/
def addrA : CosmosAddress := List.replicate 20 1

/-- A second, distinct 20-byte foreign address. -/
def addrB : CosmosAddress := List.replicate 20 2

/-- The empty ledger. -/
def stEmpty : PalletState := ⟨[], [], [], [], []⟩

/-- The state after linking `addrA` to account 7 in the empty ledger. -/
def stLinked : PalletState :=
  { stEmpty with
    cosmosAccounts := [(addrA, 7)],
    events := [.CosmosAccountLinked addrA 7] }

/-- A ledger holding one `Completed` and one `Failed` transaction record. -/
def stTerminal : PalletState :=
  { cosmosAccounts := [],
    crossChainTransactions :=
      [(hash_of 0 addrA 5, ⟨0, addrA, 5, .Completed⟩),
       (hash_of 0 addrB 7, ⟨0, addrB, 7, .Failed⟩)],
    free := [], reserved := [], events := [] }

/-- A ledger where account 0 holds 50 free units. -/
def stPoor : PalletState :=
  { cosmosAccounts := [], crossChainTransactions := [],
    free := [(0, 50)], reserved := [], events := [] }

/-- A ledger where a record for `hash_of 0 addrA 5` already exists (already
`Completed`) and account 0 holds 10 free units. -/
def stDup : PalletState :=
  { cosmosAccounts := [],
    crossChainTransactions := [(hash_of 0 addrA 5, ⟨0, addrA, 5, .Completed⟩)],
    free := [(0, 10)], reserved := [], events := [] }

/-- A ledger where account 0 holds 200 free and 3 reserved units and
account 1 holds 30 free units. -/
def stRich : PalletState :=
  { cosmosAccounts := [], crossChainTransactions := [],
    free := [(0, 200), (1, 30)], reserved := [(0, 3)], events := [] }

/-! ### Claim C1 -/

/-- C1, counterexample.  The claim states that `complete` on a record whose
status is terminal (`Completed` or `Failed`) fails with
`TransactionNotFound` and leaves the record unchanged.  On the concrete
ledger `stTerminal`, whose record for `hash_of 0 addrB 7` has status
`Failed`, `complete_cross_chain_tx` instead SUCCEEDS and moves the record
out of the terminal status `Failed` into `Completed`: the source performs
no status check at all. -/
theorem complete_terminal_status_cex :
    complete_cross_chain_tx stTerminal 1 (hash_of 0 addrB 7) =
      .ok { stTerminal with
        crossChainTransactions :=
          [(hash_of 0 addrA 5, ⟨0, addrA, 5, .Completed⟩),
           (hash_of 0 addrB 7, ⟨0, addrB, 7, .Completed⟩)],
        events := [.CrossChainTransactionCompleted (hash_of 0 addrB 7)] } := by
  rfl

/-- C1, amended.  `complete` fails with `TransactionNotFound` only for an
absent tx id; whenever a record is stored — regardless of its status,
terminal or not — `complete` succeeds and overwrites the status with
`Completed`, and calling `complete` again on the same tx id succeeds
again. -/
theorem complete_ignores_terminal_status (st : PalletState) (who : AccountId)
    (tx_hash : TxHash) (tx : CrossChainTx)
    (h : assocGet tx_hash st.crossChainTransactions = some tx) :
    ∃ st', complete_cross_chain_tx st who tx_hash = .ok st' ∧
      assocGet tx_hash st'.crossChainTransactions =
        some { tx with status := .Completed } ∧
      ∀ who2, ∃ st'', complete_cross_chain_tx st' who2 tx_hash = .ok st'' ∧
        assocGet tx_hash st''.crossChainTransactions =
          some { tx with status := .Completed } := by
  refine ⟨_, complete_ok_of_found who h, assocGet_assocSet_self _ _ _, ?_⟩
  intro who2
  refine ⟨_, complete_ok_of_found who2 (assocGet_assocSet_self _ _ _), ?_⟩
  exact assocGet_assocSet_self _ _ _

/-- C1, witness for the amended theorem: on `stTerminal`, the record for
`hash_of 0 addrA 5` is already `Completed`, yet `complete` succeeds, keeps
it `Completed`, and succeeds again. -/
theorem complete_ignores_terminal_status_witness :
    ∃ st', complete_cross_chain_tx stTerminal 1 (hash_of 0 addrA 5) = .ok st' ∧
      assocGet (hash_of 0 addrA 5) st'.crossChainTransactions =
        some { from_ := 0, to_cosmos_address := addrA, amount := 5,
               status := .Completed } ∧
      ∀ who2, ∃ st'',
        complete_cross_chain_tx st' who2 (hash_of 0 addrA 5) = .ok st'' ∧
        assocGet (hash_of 0 addrA 5) st''.crossChainTransactions =
          some { from_ := 0, to_cosmos_address := addrA, amount := 5,
                 status := .Completed } :=
  complete_ignores_terminal_status stTerminal 1 (hash_of 0 addrA 5)
    ⟨0, addrA, 5, .Completed⟩ (by rfl)

/-! ### Claim C2 -/

/-- C2: `initiate_cross_chain_tx` is atomic on failure.  Whenever it
returns an error, the state carried at the failure point is the unchanged
input state (no record persisted, no balance touched — the only error path
is the `InsufficientBalance` check, which precedes every write; the
`reserve` call after the record insert never fails because the balance was
just checked), the error is `InsufficientBalance`, the free balance was
indeed below `amount`, and the committed state of the dispatch equals the
input state. -/
theorem initiate_error_atomic (st : PalletState) (who : AccountId)
    (to_cosmos_address : CosmosAddress) (amount : Balance) (e : Error)
    (st' : PalletState)
    (h : initiate_cross_chain_tx st who to_cosmos_address amount =
      .error (e, st')) :
    st' = st ∧ e = .InsufficientBalance ∧ free_balance st who < amount ∧
      exec st (.initiate who to_cosmos_address amount) = st := by
  by_cases hb : amount ≤ free_balance st who
  · rw [initiate_ok_of_le hb] at h
    exact absurd h (by simp)
  · unfold initiate_cross_chain_tx at h
    rw [if_neg hb] at h
    obtain ⟨he, hst⟩ : Error.InsufficientBalance = e ∧ st = st' := by
      injection h with h'
      injection h' with h1 h2
      exact ⟨h1, h2⟩
    refine ⟨hst.symm, he.symm, Nat.lt_of_not_le hb, ?_⟩
    simp only [exec, dispatch]
    unfold initiate_cross_chain_tx
    rw [if_neg hb]

/-- C2, witness: with 50 free units, initiating a 100-unit transfer fails
with `InsufficientBalance` and both the carried and the committed state are
the unchanged input state. -/
theorem initiate_error_atomic_witness :
    stPoor = stPoor ∧ Error.InsufficientBalance = Error.InsufficientBalance ∧
      free_balance stPoor 0 < 100 ∧
      exec stPoor (.initiate 0 addrA 100) = stPoor :=
  initiate_error_atomic stPoor 0 addrA 100 .InsufficientBalance stPoor
    (by rfl)

/-! ### Claim C3 -/

/-- C3, counterexample.  The claim states that when a record with the
derived tx id already exists, `initiate` fails rather than silently
overwriting it.  On the concrete ledger `stDup`, which already stores a
`Completed` record under `hash_of 0 addrA 5`, the call
`initiate_cross_chain_tx stDup 0 addrA 5` instead SUCCEEDS, silently
overwrites the existing record with a fresh `Initiated` one (destroying
the `Completed` status), and reserves the amount again: the source
performs no duplicate check. -/
theorem initiate_duplicate_cex :
    initiate_cross_chain_tx stDup 0 addrA 5 =
      .ok { cosmosAccounts := [],
            crossChainTransactions :=
              [(hash_of 0 addrA 5, ⟨0, addrA, 5, .Initiated⟩)],
            free := [(0, 5)], reserved := [(0, 5)],
            events := [.CrossChainTransactionInitiated 0 addrA 5
              (hash_of 0 addrA 5)] } := by
  rfl

/-- C3, amended.  `initiate_cross_chain_tx` performs no existence check on
the derived tx id: when a record with that id already exists and the
balance check passes, the call succeeds, silently overwrites the stored
record with a fresh `Initiated` one, and reserves `amount` again. -/
theorem initiate_overwrites_duplicate (st : PalletState) (who : AccountId)
    (to_cosmos_address : CosmosAddress) (amount : Balance)
    (tx0 : CrossChainTx)
    (_hdup : assocGet (hash_of who to_cosmos_address amount)
      st.crossChainTransactions = some tx0)
    (hbal : amount ≤ free_balance st who) :
    ∃ st', initiate_cross_chain_tx st who to_cosmos_address amount =
        .ok st' ∧
      assocGet (hash_of who to_cosmos_address amount)
        st'.crossChainTransactions =
        some ⟨who, to_cosmos_address, amount, .Initiated⟩ ∧
      reserved_balance st' who = reserved_balance st who + amount := by
  refine ⟨_, initiate_ok_of_le hbal, assocGet_assocSet_self _ _ _, ?_⟩
  unfold reserved_balance
  simp [assocGet_assocSet_self]

/-- C3, witness for the amended theorem: on `stDup` the existing
`Completed` record under `hash_of 0 addrA 5` is silently replaced by a
fresh `Initiated` record and 5 more units become reserved. -/
theorem initiate_overwrites_duplicate_witness :
    ∃ st', initiate_cross_chain_tx stDup 0 addrA 5 = .ok st' ∧
      assocGet (hash_of 0 addrA 5) st'.crossChainTransactions =
        some ⟨0, addrA, 5, .Initiated⟩ ∧
      reserved_balance st' 0 = reserved_balance stDup 0 + 5 :=
  initiate_overwrites_duplicate stDup 0 addrA 5 ⟨0, addrA, 5, .Completed⟩
    (by rfl) (by decide)

/-! ### Claim C4 -/

/-- C4: conservation on successful initiation.  When the caller's free
balance covers `amount`, `initiate_cross_chain_tx` succeeds, the caller's
free balance decreases by exactly `amount`, the caller's reserved balance
increases by exactly `amount`, a record with status `Initiated` is stored
under the derived hash, and no other account's free or reserved balance
changes. -/
theorem initiate_conservation (st : PalletState) (who : AccountId)
    (to_cosmos_address : CosmosAddress) (amount : Balance)
    (h : amount ≤ free_balance st who) :
    ∃ st', initiate_cross_chain_tx st who to_cosmos_address amount =
        .ok st' ∧
      free_balance st' who + amount = free_balance st who ∧
      reserved_balance st' who = reserved_balance st who + amount ∧
      assocGet (hash_of who to_cosmos_address amount)
        st'.crossChainTransactions =
        some ⟨who, to_cosmos_address, amount, .Initiated⟩ ∧
      (∀ a, a ≠ who → free_balance st' a = free_balance st a ∧
        reserved_balance st' a = reserved_balance st a) := by
  refine ⟨_, initiate_ok_of_le h, ?_, ?_, assocGet_assocSet_self _ _ _, ?_⟩
  · show (assocGet who (assocSet who (free_balance st who - amount)
      st.free)).getD 0 + amount = free_balance st who
    rw [assocGet_assocSet_self]
    exact Nat.sub_add_cancel h
  · show (assocGet who (assocSet who (reserved_balance st who + amount)
      st.reserved)).getD 0 = reserved_balance st who + amount
    rw [assocGet_assocSet_self]
    rfl
  · intro a ha
    constructor
    · show (assocGet a (assocSet who (free_balance st who - amount)
        st.free)).getD 0 = free_balance st a
      rw [assocGet_assocSet_ne ha]
      rfl
    · show (assocGet a (assocSet who (reserved_balance st who + amount)
        st.reserved)).getD 0 = reserved_balance st a
      rw [assocGet_assocSet_ne ha]
      rfl

/-- C4, witness: on `stRich` (account 0: 200 free / 3 reserved, account 1:
30 free), initiating a 100-unit transfer leaves account 0 with 100 free
and 103 reserved, stores the `Initiated` record, and does not touch
account 1. -/
theorem initiate_conservation_witness :
    ∃ st', initiate_cross_chain_tx stRich 0 addrA 100 = .ok st' ∧
      free_balance st' 0 + 100 = free_balance stRich 0 ∧
      reserved_balance st' 0 = reserved_balance stRich 0 + 100 ∧
      assocGet (hash_of 0 addrA 100) st'.crossChainTransactions =
        some ⟨0, addrA, 100, .Initiated⟩ ∧
      (∀ a, a ≠ 0 → free_balance st' a = free_balance stRich a ∧
        reserved_balance st' a = reserved_balance stRich a) :=
  initiate_conservation stRich 0 addrA 100 (by decide)

/-! ### Claim C5 -/

/-- One committed call never disturbs an established identity link: `link`
on the same foreign address fails before mutating, `link` on another
address writes under a different key, and `initiate` / `complete` do not
touch the `CosmosAccounts` store at all. -/
theorem link_preserved_by_exec (st0 : PalletState) (w : AccountId)
    (fa : CosmosAddress) (hw : assocGet fa st0.cosmosAccounts = some w)
    (c : Call) : assocGet fa (exec st0 c).cosmosAccounts = some w := by
  cases c with
  | link who2 fa2 =>
    by_cases hv : 20 ≤ fa2.length ∧ fa2.length ≤ 255
    · by_cases hn : assocGet fa2 st0.cosmosAccounts = none
      · have hne : fa ≠ fa2 := by
          intro e
          rw [e, hn] at hw
          cases hw
        simp only [exec, dispatch, link_ok_spec hv hn]
        rw [assocGet_assocSet_ne hne]
        exact hw
      · simp only [exec, dispatch]
        unfold link_cosmos_account
        rw [if_pos hv, if_neg hn]
        exact hw
    · simp only [exec, dispatch]
      unfold link_cosmos_account
      rw [if_neg hv]
      exact hw
  | initiate who2 to2 amount2 =>
    by_cases hb : amount2 ≤ free_balance st0 who2
    · simp only [exec, dispatch, initiate_ok_of_le hb]
      exact hw
    · simp only [exec, dispatch]
      unfold initiate_cross_chain_tx
      rw [if_neg hb]
      exact hw
  | complete who2 h2 =>
    cases hg : assocGet h2 st0.crossChainTransactions with
    | none =>
      simp only [exec, dispatch]
      unfold complete_cross_chain_tx
      rw [hg]
      exact hw
    | some tx =>
      simp only [exec, dispatch, complete_ok_of_found who2 hg]
      exact hw

/-- An established identity link survives any sequence of committed
calls. -/
theorem link_preserved_by_execAll (st0 : PalletState) (w : AccountId)
    (fa : CosmosAddress) (hw : assocGet fa st0.cosmosAccounts = some w)
    (cs : List Call) : assocGet fa (execAll st0 cs).cosmosAccounts = some w := by
  induction cs generalizing st0 with
  | nil => exact hw
  | cons c cs ih => exact ih _ (link_preserved_by_exec st0 w fa hw c)

/-- A `link` call on a foreign address that is already linked fails with
`AccountAlreadyLinked`, carrying the unchanged state. -/
theorem link_already_linked {st : PalletState} {fa : CosmosAddress}
    {w : AccountId} (hv : 20 ≤ fa.length ∧ fa.length ≤ 255)
    (hsome : assocGet fa st.cosmosAccounts = some w) (who2 : AccountId) :
    link_cosmos_account st who2 fa = .error (.AccountAlreadyLinked, st) := by
  unfold link_cosmos_account
  rw [if_pos hv, if_neg (by rw [hsome]; intro e; cases e)]

/-- C5: link uniqueness.  After a successful
`link_cosmos_account st who fa`, the store maps `fa` to `who`; every later
`link` on the same `fa`, by any caller, fails with `AccountAlreadyLinked`
carrying the unchanged state; and the mapping `fa ↦ who` survives any
sequence of further committed calls, so `fa` maps to `who` forever. -/
theorem link_uniqueness (st : PalletState) (who : AccountId)
    (fa : CosmosAddress) (st' : PalletState)
    (h : link_cosmos_account st who fa = .ok st') :
    assocGet fa st'.cosmosAccounts = some who ∧
    (∀ who2, link_cosmos_account st' who2 fa =
      .error (.AccountAlreadyLinked, st')) ∧
    (∀ cs : List Call, assocGet fa (execAll st' cs).cosmosAccounts =
      some who) := by
  by_cases hv : 20 ≤ fa.length ∧ fa.length ≤ 255
  · by_cases hn : assocGet fa st.cosmosAccounts = none
    · rw [link_ok_spec hv hn] at h
      injection h with h'
      subst h'
      have hget : assocGet fa (deposit_event { st with
          cosmosAccounts := assocSet fa who st.cosmosAccounts }
          (.CosmosAccountLinked fa who)).cosmosAccounts = some who :=
        assocGet_assocSet_self _ _ _
      exact ⟨hget, fun who2 => link_already_linked hv hget who2,
        fun cs => link_preserved_by_execAll _ who fa hget cs⟩
    · exfalso
      unfold link_cosmos_account at h
      rw [if_pos hv, if_neg hn] at h
      cases h
  · exfalso
    unfold link_cosmos_account at h
    rw [if_neg hv] at h
    cases h

/-- C5, witness: linking `addrA` to account 7 in the empty ledger
establishes the mapping, makes every later `link` on `addrA` fail with
`AccountAlreadyLinked`, and the mapping survives every later call
sequence. -/
theorem link_uniqueness_witness :
    assocGet addrA stLinked.cosmosAccounts = some 7 ∧
    (∀ who2, link_cosmos_account stLinked who2 addrA =
      .error (.AccountAlreadyLinked, stLinked)) ∧
    (∀ cs : List Call, assocGet addrA (execAll stLinked cs).cosmosAccounts =
      some 7) :=
  link_uniqueness stEmpty 7 addrA stLinked (by rfl)

/-! ### Claim C6 -/

/-- C6: validation boundary.  `utils::validate_cosmos_address` returns
true exactly when the UTF-8 byte length of its input lies in [20, 255]; in
particular it is false for a 19-byte input and for a 256-byte input; and
the same length predicate (over the raw byte vector) is exactly what gates
the `InvalidCosmosAddress` rejection of `link_cosmos_account`. -/
theorem validation_boundary :
    (∀ s : String, utils.validate_cosmos_address s = true ↔
      20 ≤ s.utf8ByteSize ∧ s.utf8ByteSize ≤ 255) ∧
    utils.validate_cosmos_address (String.mk (List.replicate 19 'a')) =
      false ∧
    utils.validate_cosmos_address (String.mk (List.replicate 256 'a')) =
      false ∧
    (∀ (st : PalletState) (who : AccountId) (bs : CosmosAddress),
      link_cosmos_account st who bs = .error (.InvalidCosmosAddress, st) ↔
        ¬(20 ≤ bs.length ∧ bs.length ≤ 255)) := by
  refine ⟨?_, by decide, by decide, ?_⟩
  · intro s
    unfold utils.validate_cosmos_address
    constructor
    · intro h
      have h1 := (Bool.and_eq_true _ _).mp h
      exact ⟨of_decide_eq_true h1.1, of_decide_eq_true h1.2⟩
    · intro h
      exact (Bool.and_eq_true _ _).mpr
        ⟨decide_eq_true h.1, decide_eq_true h.2⟩
  · intro st who bs
    constructor
    · intro h hv
      by_cases hn : assocGet bs st.cosmosAccounts = none
      · rw [link_ok_spec hv hn] at h
        cases h
      · unfold link_cosmos_account at h
        rw [if_pos hv, if_neg hn] at h
        injection h with h'
        injection h' with h1 h2
        cases h1
    · intro hv
      unfold link_cosmos_account
      rw [if_neg hv]

/-! ### Claim C7 -/

/-- C7: completion is caller-independent.  `complete_cross_chain_tx` binds
the signed caller as `_who` and never consults it, so for any two
authenticated callers the call returns the same result and the same
resulting state on the same ledger. -/
theorem complete_caller_independent :
    ∀ (st : PalletState) (who1 who2 : AccountId) (tx_hash : TxHash),
      complete_cross_chain_tx st who1 tx_hash =
        complete_cross_chain_tx st who2 tx_hash :=
  fun _ _ _ _ => rfl

/-! ### Claim C8 -/

/-- C8: boundary totality.  `ffi::create_cross_chain_transaction` returns
the null sentinel whenever any of its three pointer arguments is null or
either chain-id string is not valid UTF-8, and the FFI validators return 0
for a null pointer or invalid UTF-8 and otherwise exactly the 0/1 encoding
of the boolean validators.  All modelled boundary functions are total Lean
functions: within the embedding no input makes them throw across the
boundary. -/
theorem boundary_totality :
    (∀ d p, ffi.create_cross_chain_transaction .null d p = none) ∧
    (∀ s p, ffi.create_cross_chain_transaction s .null p = none) ∧
    (∀ s d, ffi.create_cross_chain_transaction s d none = none) ∧
    (∀ d p, ffi.create_cross_chain_transaction .invalidUtf8 d p = none) ∧
    (∀ s p, ffi.create_cross_chain_transaction s .invalidUtf8 p = none) ∧
    ffi.validate_cosmos_address .null = 0 ∧
    ffi.validate_cosmos_address .invalidUtf8 = 0 ∧
    (∀ s, ffi.validate_cosmos_address (.valid s) =
      if utils.validate_cosmos_address s then 1 else 0) ∧
    ffi.validate_polkadot_address .null = 0 ∧
    ffi.validate_polkadot_address .invalidUtf8 = 0 ∧
    (∀ s, ffi.validate_polkadot_address (.valid s) =
      if utils.validate_polkadot_address s then 1 else 0) := by
  refine ⟨?_, ?_, ?_, ?_, ?_, rfl, rfl, fun _ => rfl, rfl, rfl, fun _ => rfl⟩
  · intro d p
    simp [ffi.create_cross_chain_transaction]
  · intro s p
    simp [ffi.create_cross_chain_transaction]
  · intro s d
    simp [ffi.create_cross_chain_transaction]
  · intro d p
    cases d <;> cases p <;>
      simp [ffi.create_cross_chain_transaction, ffi.cstr_to_str]
  · intro s p
    cases s <;> cases p <;>
      simp [ffi.create_cross_chain_transaction, ffi.cstr_to_str]

/-! ### Claim C9 -/

/-- C9: frame property of completion.  A successful
`complete_cross_chain_tx` changes only the status field of the addressed
record: `from`, `to_cosmos_address` and `amount` are preserved, every
other transaction record is untouched, the identity-link store is
untouched, and the free and reserved balance tables are untouched — in
particular the amount reserved at initiation stays reserved. -/
theorem complete_frame (st : PalletState) (who : AccountId)
    (tx_hash : TxHash) (tx : CrossChainTx)
    (h : assocGet tx_hash st.crossChainTransactions = some tx) :
    ∃ st', complete_cross_chain_tx st who tx_hash = .ok st' ∧
      assocGet tx_hash st'.crossChainTransactions =
        some { from_ := tx.from_, to_cosmos_address := tx.to_cosmos_address,
               amount := tx.amount, status := .Completed } ∧
      (∀ h2, h2 ≠ tx_hash →
        assocGet h2 st'.crossChainTransactions =
          assocGet h2 st.crossChainTransactions) ∧
      st'.cosmosAccounts = st.cosmosAccounts ∧
      st'.free = st.free ∧ st'.reserved = st.reserved := by
  refine ⟨_, complete_ok_of_found who h, assocGet_assocSet_self _ _ _,
    ?_, rfl, rfl, rfl⟩
  intro h2 hne
  exact assocGet_assocSet_ne hne _ _

/-- C9, witness: completing the `Failed` record of `stTerminal` keeps its
`from`/`to_cosmos_address`/`amount` fields, leaves the other record, the
link store and both balance tables untouched. -/
theorem complete_frame_witness :
    ∃ st', complete_cross_chain_tx stTerminal 3 (hash_of 0 addrB 7) =
        .ok st' ∧
      assocGet (hash_of 0 addrB 7) st'.crossChainTransactions =
        some { from_ := 0, to_cosmos_address := addrB, amount := 7,
               status := .Completed } ∧
      (∀ h2, h2 ≠ hash_of 0 addrB 7 →
        assocGet h2 st'.crossChainTransactions =
          assocGet h2 stTerminal.crossChainTransactions) ∧
      st'.cosmosAccounts = stTerminal.cosmosAccounts ∧
      st'.free = stTerminal.free ∧ st'.reserved = stTerminal.reserved :=
  complete_frame stTerminal 3 (hash_of 0 addrB 7) ⟨0, addrB, 7, .Failed⟩
    (by rfl)

/-! ### Claim C10 -/

/-- C10: linking is keyed solely on the foreign address.  The same local
account can link two distinct valid foreign addresses: both calls succeed
(despite the error name `AccountAlreadyLinked`), leaving both addresses
mapped to that one account. -/
theorem link_two_addresses_same_account (st : PalletState) (who : AccountId)
    (fa1 fa2 : CosmosAddress) (hne : fa1 ≠ fa2)
    (hv1 : 20 ≤ fa1.length ∧ fa1.length ≤ 255)
    (hv2 : 20 ≤ fa2.length ∧ fa2.length ≤ 255)
    (h1 : assocGet fa1 st.cosmosAccounts = none)
    (h2 : assocGet fa2 st.cosmosAccounts = none) :
    ∃ st1 st2, link_cosmos_account st who fa1 = .ok st1 ∧
      link_cosmos_account st1 who fa2 = .ok st2 ∧
      assocGet fa1 st2.cosmosAccounts = some who ∧
      assocGet fa2 st2.cosmosAccounts = some who := by
  have hne' : fa2 ≠ fa1 := fun e => hne e.symm
  refine ⟨_, _, link_ok_spec hv1 h1, link_ok_spec hv2 ?_, ?_, ?_⟩
  · show assocGet fa2 (assocSet fa1 who st.cosmosAccounts) = none
    rw [assocGet_assocSet_ne hne']
    exact h2
  · show assocGet fa1 (assocSet fa2 who
      (assocSet fa1 who st.cosmosAccounts)) = some who
    rw [assocGet_assocSet_ne hne]
    exact assocGet_assocSet_self _ _ _
  · exact assocGet_assocSet_self _ _ _

/-- C10, witness: account 9 links both `addrA` and `addrB` in the empty
ledger; both calls succeed and both addresses end up mapped to 9. -/
theorem link_two_addresses_same_account_witness :
    ∃ st1 st2, link_cosmos_account stEmpty 9 addrA = .ok st1 ∧
      link_cosmos_account st1 9 addrB = .ok st2 ∧
      assocGet addrA st2.cosmosAccounts = some 9 ∧
      assocGet addrB st2.cosmosAccounts = some 9 :=
  link_two_addresses_same_account stEmpty 9 addrA addrB (by decide)
    (by decide) (by decide) (by rfl) (by rfl)

end CosmosBridge
